import Mathlib

/-!
Verification of the herdstat contribution-graph core (calendar aggregation,
week partitioning, color quantization and SVG heatmap rendering).

The Go source is shallowly embedded below.  Conventions of the embedding:

* A point in time is an integer number of hours since the Unix epoch
  (1970-01-01 00:00 UTC); a calendar *date* is its day number, i.e. hours
  divided by 24.  `time.Time.Weekday()` becomes `weekday` (Sunday = 0;
  1970-01-01 was a Thursday, hence the `+ 4`), `time.Time.Day()` becomes
  `dayOfMonth` via the standard civil-from-days conversion.
* Go `int` is embedded as `ℤ`.  Go integer division and remainder truncate
  toward zero, which is `Int.div` / `Int.emod` on the truncating side; where
  both operands are provably non-negative the embedding uses `ℕ`.
* Go conversions to `uint8` take the value modulo 2^8; this is made explicit
  with `% 256` / `Int.emod 256` wherever the operand is not obviously in
  range.
* The `xml.Encoder` is embedded as a list of tokens (`XmlToken`); every
  `EncodeToken` call appends tokens, so a render becomes a pure function
  from the graph to a token list.
* Fallible operations (`newWeekSlice`, slice indexing that can panic)
  return `Option`/are paired with a `Bool` validity check.
-/

namespace Herdstat

/-! ## Dates

`time.Time` values at day granularity.  `epochDay d` is the date `d` days
after 1970-01-01. -/

/-- `time.Time.Weekday()` for a date given as days since the epoch.
Sunday = 0, ..., Saturday = 6.  1970-01-01 (day 0) was a Thursday (4). -/
def weekday (d : ℤ) : ℕ :=
  (((d + 4) % 7 : ℤ)).toNat

/-- `previousSunday` from the source: `date.AddDate(0, 0, -int(date.Weekday()))`,
the latest Sunday on or before the given date. -/
def previousSunday (d : ℤ) : ℤ :=
  d - ((d + 4) % 7)

/-- Civil (Gregorian) date `(year, month, day)` of an epoch day number,
using the standard Hinnant civil-from-days algorithm.  This embeds the
calendar arithmetic behind Go's `time.Time.Day()`, `Month()` and `Year()`. -/
def civilFromDays (z : ℤ) : ℤ × ℕ × ℕ :=
  let z' := z + 719468
  let era : ℤ := z'.ediv 146097
  let doe : ℕ := ((z' % 146097 : ℤ)).toNat
  let yoe : ℕ := (doe - doe / 1460 + doe / 36524 - doe / 146096) / 365
  let doy : ℕ := doe - (365 * yoe + yoe / 4 - yoe / 100)
  let mp : ℕ := (5 * doy + 2) / 153
  let day : ℕ := doy - (153 * mp + 2) / 5 + 1
  let month : ℕ := if mp < 10 then mp + 3 else mp - 9
  let year : ℤ := (yoe : ℤ) + era * 400 + (if month ≤ 2 then 1 else 0)
  (year, month, day)

/-- `time.Time.Day()`: the day of the month (1-31). -/
def dayOfMonth (d : ℤ) : ℕ :=
  (civilFromDays d).2.2

/-- `time.Time.Month()` as a number (1-12). -/
def monthOf (d : ℤ) : ℕ :=
  (civilFromDays d).2.1

/-- `time.Time.Year()`. -/
def yearOf (d : ℤ) : ℤ :=
  (civilFromDays d).1

/-- The month abbreviation used by Go's `"Jan"` format verb. -/
def monthAbbrev : ℕ → String
  | 1 => "Jan" | 2 => "Feb" | 3 => "Mar" | 4 => "Apr"
  | 5 => "May" | 6 => "Jun" | 7 => "Jul" | 8 => "Aug"
  | 9 => "Sep" | 10 => "Oct" | 11 => "Nov" | 12 => "Dec"
  | _ => ""

/-- Go's `date.Format("Jan 2, 2006")`: month abbreviation, unpadded day,
comma, full year. -/
def formatMonthDayYear (d : ℤ) : String :=
  s!"{monthAbbrev (monthOf d)} {dayOfMonth d}, {yearOf d}"

/-! ## Data model -/

/-- `ContributionRecord` from the source: the activity data for a single
day.  `Date` is the day number, `Count` a Go `int`. -/
structure ContributionRecord where
  Date : ℤ
  Count : ℤ
deriving DecidableEq, Repr

/-- RGB color (the `A` component of Go's `color.RGBA` is never set by the
source and is dropped). -/
structure Rgb where
  R : ℕ
  G : ℕ
  B : ℕ
deriving DecidableEq, Repr

/-- `ColorSpectrum`: the two ends of a color spectrum. -/
structure ColorSpectrum where
  Min : Rgb
  Max : Rgb
deriving DecidableEq, Repr

/-- `ColorScheme`: a light-mode and a dark-mode spectrum. -/
structure ColorScheme where
  Light : ColorSpectrum
  Dark : ColorSpectrum
deriving DecidableEq, Repr

/-- `Coloring`: translates an intensity (and a dark-scheme flag) into a
color. -/
def Coloring : Type := ℕ → Bool → Rgb

/-- `ContributionGraph`: 364 days of activity records, the last date, the
coloring and the number of color levels. -/
structure ContributionGraph where
  Records : List ContributionRecord
  LastDate : ℤ
  Coloring : Coloring
  Levels : ℕ

/-! ## Week partitioning

`ContributionGraph.renderContributionCellMatrix` prepares the week slices:
53 in the general case, 52 when the last date is a Saturday; slice 0 may
start late in the week, the final slice ends on the last date's weekday,
and each slice consumes `last - first + 1` records from the front of the
remaining record list. -/

/-- The number of week slices: 53 in general, 52 when the last date falls
on a Saturday (weekday 6). -/
def sliceCount (w : ℕ) : ℕ :=
  if w = 6 then 52 else 53

/-- First weekday of slice `i` (out of `n` slices) when the last date has
weekday `w`: `(w + 1) % 7` for the first slice, Sunday (0) otherwise.
(In the source the `switch` arms for `0` and `n - 1` are mutually
exclusive; since `n ≥ 52` they can never coincide, so modelling them as
two independent conditionals is faithful.) -/
def sliceFirst (w n i : ℕ) : ℕ :=
  if i = 0 then (w + 1) % 7 else 0

/-- Last weekday of slice `i` (out of `n` slices): `w` for the final
slice, Saturday (6) otherwise. -/
def sliceLast (w n i : ℕ) : ℕ :=
  if i = n - 1 then w else 6

/-- Number of records consumed by slice `i`: `last - first + 1`.  (In all
reachable cases `sliceFirst ≤ sliceLast`, so natural subtraction agrees
with the source's `int` subtraction.) -/
def sliceLen (w n i : ℕ) : ℕ :=
  sliceLast w n i - sliceFirst w n i + 1

/-- The data of one constructed `weekSlice`. -/
structure WeekSliceData where
  refDate : ℤ
  first : ℕ
  last : ℕ
  records : List ContributionRecord
  index : ℕ
deriving DecidableEq, Repr

/-- The validity checks performed by `newWeekSlice`: the reference date
must be a Sunday, the slice must start on Sunday or end on Saturday, and
the record count must be `last - first + 1`.  `newWeekSlice` returns an
error iff this is `false`. -/
def validWeekSlice (s : WeekSliceData) : Bool :=
  weekday s.refDate == 0 &&
    (s.first == 0 || s.last == 6) &&
    s.records.length == s.last - s.first + 1

/-- The slice-preparation loop of `renderContributionCellMatrix`, with the
remaining iteration count `k` made explicit (`i` counts up from 0 to
`n - 1`, so `k = n - i`).  Each iteration takes `sliceLen` records off the
front of the remaining records and builds the slice for reference date
`previousSunday (lastDate - 7 * (n - i - 1))`. -/
def partitionFuel (lastDate : ℤ) (n : ℕ) : ℕ → ℕ → List ContributionRecord → List WeekSliceData
  | 0, _, _ => []
  | k + 1, i, recs =>
    let w := weekday lastDate
    let len := sliceLen w n i
    { refDate := previousSunday (lastDate - 7 * ((n : ℤ) - i - 1))
      first := sliceFirst w n i
      last := sliceLast w n i
      records := recs.take len
      index := i } :: partitionFuel lastDate n k (i + 1) (recs.drop len)

/-- The full week partition of the record list performed by
`renderContributionCellMatrix`. -/
def partitionSlices (lastDate : ℤ) (recs : List ContributionRecord) : List WeekSliceData :=
  partitionFuel lastDate (sliceCount (weekday lastDate)) (sliceCount (weekday lastDate)) 0 recs

/-- Total number of records consumed by slices `i, i+1, ..., i+k-1`. -/
def lenSum (w n i k : ℕ) : ℕ :=
  ((List.range k).map fun j => sliceLen w n (i + j)).sum

/-! ## Color quantization

`ContributionGraph.intensity` normalizes a record's count against the
maximum count of the calendar, and `weekSlice.renderDay` quantizes the
intensity into one of `Levels` discrete color levels. -/

/-- The loop body of the generic `max` helper: fold the comparator
`func(a, b) { return a.Count - b.Count }` over the remaining elements
(`comp(e, max) > 0` iff `max.Count < e.Count`). -/
def goMaxAux (m : ContributionRecord) : List ContributionRecord → ContributionRecord
  | [] => m
  | e :: es => goMaxAux (if m.Count < e.Count then e else m) es

/-- The generic `max` helper from the source: starts from the zero value
and unconditionally replaces it with the first element, then keeps any
strictly greater element. -/
def goMax : List ContributionRecord → ContributionRecord
  | [] => ⟨0, 0⟩
  | e :: es => goMaxAux e es

/-- `maxCount` as computed by `ContributionGraph.intensity`: the maximum
`Count` over all records (0 for an empty record list). -/
def maxCountOf (records : List ContributionRecord) : ℤ :=
  (goMax records).Count

/-- `ContributionGraph.intensity`.  The source returns
`uint8(255.0 / maxCount * r.Count)`: because `maxCount` has type `int`,
the untyped constant `255.0` is converted to `int` and `255.0 / maxCount`
is Go *integer* division (truncated), so the expression is
`(255 / maxCount) * r.Count` in `int` arithmetic, converted to `uint8`
(low 8 bits, i.e. modulo 256 of the two's-complement value). -/
def goIntensity (records : List ContributionRecord) (r : ContributionRecord) : ℕ :=
  let maxCount := maxCountOf records
  if maxCount = 0 then 0
  else ((Int.tdiv 255 maxCount * r.Count) % 256).toNat

/-- The intensity formula in the words of the spec, written down for
comparison with `goIntensity`: `round(255 * count / maxCount)` clamped
to `[0, 255]`, and `0` when `maxCount = 0`. -/
def intensitySpecRound (maxCount count : ℤ) : ℤ :=
  if maxCount = 0 then 0
  else min 255 (max 0 (round ((255 * count : ℚ) / (maxCount : ℚ))))

/-- The color-level computation in `weekSlice.renderDay`:
`uint8(math.Min(math.Ceil(float64(intensity)/256.0*float64(levels)), float64(levels-1)))`.
For `intensity ≤ 255` and `levels ≤ 255` every intermediate float64 value
is exact (`intensity/256` is dyadic and `intensity * levels < 2^53`), so
the expression equals `min ⌈intensity * levels / 256⌉ (levels - 1)` in
exact arithmetic; the ceiling of the natural division is
`(intensity * levels + 255) / 256`.  The result is at most
`levels - 1 ≤ 254`, so the `uint8` conversion does not wrap. -/
def renderDayLevel (intensity levels : ℕ) : ℕ :=
  min ((intensity * levels + 255) / 256) (levels - 1)

/-! ## Color interpolation -/

/-- One channel of `defaultColoring`:
`a + uint8(math.Round(float64(b)-float64(a))/256.0*float64(intensity))`.
By precedence `math.Round` applies only to `b - a` (an integer, so it is
the identity); `(b - a) / 256 * intensity` is evaluated exactly in float64
(dyadic denominator, magnitude `< 2^53`), and the conversion of the float
to `uint8` truncates toward zero and keeps the low 8 bits (the compiled
conversion goes through a 64-bit integer, whose low byte is taken); the
final `uint8` addition wraps modulo 256.  Net effect:
`(a + tdiv ((b - a) * intensity) 256) mod 256`. -/
def goColorChannel (a b intensity : ℕ) : ℕ :=
  (((a : ℤ) + Int.tdiv (((b : ℤ) - (a : ℤ)) * (intensity : ℕ)) 256) % 256).toNat

/-- `defaultColoring` from the source: per-channel interpolation between
the two ends of a spectrum. -/
def defaultColoring (mn mx : Rgb) (intensity : ℕ) : Rgb :=
  ⟨goColorChannel mn.R mx.R intensity,
   goColorChannel mn.G mx.G intensity,
   goColorChannel mn.B mx.B intensity⟩

/-- `GetColoring` from the source: pick the light or dark spectrum and
interpolate. -/
def GetColoring (scheme : ColorScheme) : Coloring := fun intensity darkScheme =>
  let spectrum := if darkScheme then scheme.Dark else scheme.Light
  defaultColoring spectrum.Min spectrum.Max intensity

/-- The channel formula in the words of the spec, written down for
comparison with `goColorChannel`:
`channelMin + round((channelMax - channelMin) / 256 * intensity)`. -/
def colorChannelSpecRound (a b intensity : ℕ) : ℤ :=
  (a : ℤ) + round ((((b : ℚ) - (a : ℚ)) / 256) * (intensity : ℕ))

/-- The legend swatch level of `renderLegend`:
`(g.Levels - 1) / 4 * uint8(i)` in `uint8` arithmetic (`levels - 1` wraps
modulo 256 when `levels = 0`, and the final product is reduced modulo
256). -/
def legendLevel (levels i : ℕ) : ℕ :=
  ((levels + 255) % 256 / 4 * i) % 256

/-- The legend swatch level in the words of the spec, written down for
comparison with `legendLevel`: `round((levels - 1) / 4 * i)`. -/
def legendLevelSpecRound (levels i : ℕ) : ℤ :=
  round ((((levels : ℚ) - 1) / 4) * (i : ℕ))

/-! ## XML token model

`encoding/xml.Encoder` is embedded as a list of emitted tokens; every
rendering helper becomes a pure function returning the tokens it encodes
(in order).  Write errors of the encoder are impossible in this model (the
sink is a list), matching the in-memory `bytes.Buffer` sink used by the
caller. -/

/-- An XML token handed to `xml.Encoder.EncodeToken`. -/
inductive XmlToken where
  | startTag (name : String) (attrs : List (String × String)) : XmlToken
  | closeTag (name : String) : XmlToken
  | charData (s : String) : XmlToken
deriving DecidableEq, Repr

/-- `nonEmptyElement` from svg.go: start tag, content, end tag. -/
def nonEmptyElement (name : String) (attrs : List (String × String))
    (content : List XmlToken) : List XmlToken :=
  XmlToken.startTag name attrs :: content ++ [XmlToken.closeTag name]

/-- `emptyElement` from svg.go. -/
def emptyElement (name : String) (attrs : List (String × String)) : List XmlToken :=
  nonEmptyElement name attrs []

/-- `translated` from svg.go: a `g` element with a translate transform. -/
def translated (dx dy : ℤ) (content : List XmlToken) : List XmlToken :=
  nonEmptyElement "g" [("transform", s!"translate({dx} {dy})")] content

/-- `textAnchor` from svg.go. -/
inductive TextAnchor where
  | aStart : TextAnchor
  | aMiddle : TextAnchor
  | aEnd : TextAnchor
deriving DecidableEq, Repr

/-- `textAnchor.String()`. -/
def anchorValue : TextAnchor → String
  | .aStart => "start"
  | .aMiddle => "middle"
  | .aEnd => "end"

/-- `cssClassAttr` from svg.go. -/
def cssClassAttr (classes : List String) : String × String :=
  ("class", String.intercalate " " classes)

/-- `cssClassAttrs` from svg.go. -/
def cssClassAttrs (classes : List String) : List (String × String) :=
  [cssClassAttr classes]

/-- `text` from svg.go. -/
def textElem (x y : ℤ) (anchor : TextAnchor) (attrs : List (String × String))
    (content : List XmlToken) : List XmlToken :=
  nonEmptyElement "text"
    ([("x", toString x), ("y", toString y), ("font-size", "12px"),
      ("text-anchor", anchorValue anchor)] ++ attrs)
    content

/-- `simpleText` from svg.go. -/
def simpleText (x y : ℤ) (anchor : TextAnchor) (attrs : List (String × String))
    (content : String) : List XmlToken :=
  textElem x y anchor attrs [XmlToken.charData content]

/-- `coloredRoundedRect` from svg.go: an empty `rect` element (width and
height 1, the real 10px size comes from the stylesheet; corner radius 2). -/
def coloredRoundedRect (x y : ℤ) (attrs : List (String × String)) : List XmlToken :=
  emptyElement "rect"
    ([("x", toString x), ("y", toString y), ("width", "1"), ("height", "1"),
      ("rx", "2")] ++ attrs)

/-! ## Stylesheet -/

/-- The per-level colors computed in `renderStyle`:
`g.Coloring(uint8(uint(i)*255/(uint(g.Levels)-1)), dark)` for
`i = 0, ..., Levels-1`.  (For `Levels ≥ 2` the `uint` arithmetic never
wraps; `Levels ∈ {0, 1}` would divide by `2^64 - 1` resp. zero in Go and
is excluded by the configuration check `levels ≥ 5`.) -/
def styleColors (levels : ℕ) (coloring : Coloring) (dark : Bool) : List Rgb :=
  (List.range levels).map fun i => coloring (i * 255 / (levels - 1)) dark

/-- CSS `rgb(...)` literal of a color, as produced by the template. -/
def cssRgb (c : Rgb) : String :=
  s!"rgb({c.R}, {c.G}, {c.B})"

/-- One custom-property line of the stylesheet template. -/
def styleLevelLine (idx : ℕ) (c : Rgb) : String :=
  s!"--herdstat-contribution-graph-color-cell-L{idx}-bg: {cssRgb c};"

/-- The block of per-level custom-property lines. -/
def styleVarLines (colors : List Rgb) : String :=
  String.intercalate "\n" (colors.enum.map fun p => styleLevelLine p.1 p.2)

/-- The block of per-level cell classes. -/
def styleCellClasses (colors : List Rgb) : String :=
  String.intercalate "\n" (colors.enum.map fun p =>
    s!".herdstat-contribution-graph-cell-L{p.1}-bg \x7b fill: var(--herdstat-contribution-graph-color-cell-L{p.1}-bg); \x7d")

/-- The stylesheet produced by executing the embedded
`contribution-graph.gohtml` template (with the enclosing `style` tags
already stripped, as done by `renderStyle`).  The exact inter-token
whitespace of the template output is abstracted; the CSS directives and
their dependence on the computed level colors are preserved. -/
def styleSheet (light dark : List Rgb) : String :=
  String.intercalate "\n"
    [ "svg \x7b font-family: -apple-system,BlinkMacSystemFont,\"Segoe UI\",\"Noto Sans\",Helvetica,Arial,sans-serif; \x7d",
      ".herdstat-contribution-graph \x7b --herdstat-contribution-graph-color-cell-border: rgba(27, 31, 35, 0.06); \x7d",
      "@media (prefers-color-scheme: light) \x7b .herdstat-contribution-graph-var \x7b --herdstat-contribution-graph-color-fg: #24292f;",
      styleVarLines light,
      "--herdstat-contribution-graph-tooltip-color-bg: rgb(36, 41, 47); --herdstat-contribution-graph-tooltip-color-fg: white; \x7d \x7d",
      "@media (prefers-color-scheme: dark) \x7b .herdstat-contribution-graph-var \x7b --herdstat-contribution-graph-color-fg: #adbac7;",
      styleVarLines dark,
      "--herdstat-contribution-graph-tooltip-color-bg: rgb(99, 111, 122); --herdstat-contribution-graph-tooltip-color-fg: rgb(204, 217, 228); \x7d \x7d",
      ".herdstat-contribution-graph-fg \x7b fill: var(--herdstat-contribution-graph-color-fg); \x7d",
      ".herdstat-contribution-graph-cell \x7b width: 10px; height: 10px; stroke: var(--herdstat-contribution-graph-color-cell-border); \x7d",
      styleCellClasses light,
      ".herdstat-contribution-graph-cell-overlay \x7b width: 10px; height: 10px; \x7d",
      ".herdstat-contribution-graph-cell-tooltip \x7b visibility: hidden; transition: opacity 0.3s; \x7d",
      ".herdstat-contribution-graph-cell-overlay:hover + .herdstat-contribution-graph-cell-tooltip \x7b visibility: visible; \x7d",
      ".herdstat-contribution-graph-cell-tooltip > rect, .herdstat-contribution-graph-cell-tooltip > polygon \x7b fill: var(--herdstat-contribution-graph-tooltip-color-bg); \x7d",
      ".herdstat-contribution-graph-cell-tooltip > text \x7b fill: var(--herdstat-contribution-graph-tooltip-color-fg); \x7d" ]

/-- `renderStyle`: the stylesheet as a `style` element. -/
def renderStyleTokens (g : ContributionGraph) : List XmlToken :=
  nonEmptyElement "style" [("type", "text/css")]
    [XmlToken.charData
      (styleSheet (styleColors g.Levels g.Coloring false)
        (styleColors g.Levels g.Coloring true))]

/-! ## Renderer -/

/-- `renderWeekdayAxis`: the three weekday labels. -/
def renderWeekdayAxisTokens : List XmlToken :=
  simpleText 40 51 .aEnd (cssClassAttrs ["herdstat-contribution-graph-fg"]) "Mon"
    ++ simpleText 40 75 .aEnd (cssClassAttrs ["herdstat-contribution-graph-fg"]) "Wed"
    ++ simpleText 40 99 .aEnd (cssClassAttrs ["herdstat-contribution-graph-fg"]) "Fri"

/-- The bold count segment `fmt.Sprintf` of the count followed by `" contributions"` and a non-breaking space (U+00A0)
used both by the overall label and by tooltips. -/
def contributionsLabel (count : ℤ) : String :=
  s!"{count} contributions\u00A0"

/-- `renderOverallContributions` at a location `(x, y)`. -/
def renderOverallContributionsTokens (x y count : ℤ) : List XmlToken :=
  textElem x (y + 9) .aStart (cssClassAttrs ["herdstat-contribution-graph-fg"])
    (nonEmptyElement "tspan" [("font-weight", "800")]
        [XmlToken.charData (contributionsLabel count)]
      ++ [XmlToken.charData "in the last year"])

/-- One legend swatch of `renderLegend`. -/
def legendSwatch (x y : ℤ) (levels i : ℕ) : List XmlToken :=
  coloredRoundedRect (x + 29 + 12 * (i : ℤ)) y
    (cssClassAttrs ["herdstat-contribution-graph-cell",
      s!"herdstat-contribution-graph-cell-L{legendLevel levels i}-bg"])

/-- `renderLegend` at a location `(x, y)`: a "Less" label, five swatches,
a "More" label. -/
def renderLegendTokens (x y : ℤ) (levels : ℕ) : List XmlToken :=
  simpleText x (y + 9) .aStart (cssClassAttrs ["herdstat-contribution-graph-fg"]) "Less"
    ++ ((List.range 5).map fun i => legendSwatch x y levels i).flatten
    ++ simpleText (x + 90) (y + 9) .aStart
        (cssClassAttrs ["herdstat-contribution-graph-fg"]) "More"

/-- `horizontalPosition`. -/
inductive HorizPos where
  | left : HorizPos
  | center : HorizPos
  | right : HorizPos
deriving DecidableEq, Repr

/-- `verticalPosition`. -/
inductive VertPos where
  | top : VertPos
  | bottom : VertPos
deriving DecidableEq, Repr

/-- `weekSlice.tooltipBoxOrigin` (with `tooltipSize = 5`,
`tooltipOffset = 10`); `-dimension.X / 2` is truncating `int` division. -/
def tooltipBoxOrigin (x y : ℤ) (hp : HorizPos) (vp : VertPos) (dimX dimY : ℤ) : ℤ × ℤ :=
  (x + (match hp with
        | .left => -20
        | .center => Int.tdiv (-dimX) 2
        | .right => -dimX + 20),
   y + (match vp with
        | .top => -(5 + dimY + 10)
        | .bottom => 15))

/-- `weekSlice.tooltipTrianglePoints`. -/
def tooltipTrianglePoints (x y : ℤ) (vp : VertPos) : String :=
  let m : ℤ := match vp with | .top => 5 | .bottom => -5
  let off : ℤ := match vp with | .top => 10 | .bottom => -10
  s!"{x - 5},{y - m - off} {x + 5},{y - m - off} {x},{y - off}"

/-- `weekSlice.renderTooltip`. -/
def renderTooltipTokens (x y : ℤ) (hp : HorizPos) (vp : VertPos)
    (r : ContributionRecord) : List XmlToken :=
  nonEmptyElement "g" (cssClassAttrs ["herdstat-contribution-graph-cell-tooltip"])
    (let origin := tooltipBoxOrigin x y hp vp 230 30
     emptyElement "rect"
        [("x", toString origin.1), ("y", toString origin.2),
         ("width", "230"), ("height", "30"), ("rx", "4")]
      ++ emptyElement "polygon" [("points", tooltipTrianglePoints x y vp)]
      ++ textElem (origin.1 + 115) (origin.2 + 19) .aMiddle []
          (nonEmptyElement "tspan" [("font-weight", "800")]
              [XmlToken.charData (contributionsLabel r.Count)]
            ++ [XmlToken.charData s!"on {formatMonthDayYear r.Date}"]))

/-- `weekSlice.renderDay`: the cell rectangle, and for the overlay pass
also the tooltip.  The vertical cell position comes from the record's own
weekday; the tooltip anchors depend on the slice index and the weekday. -/
def renderDayTokens (g : ContributionGraph) (weekIndex : ℕ)
    (r : ContributionRecord) (overlay : Bool) : List XmlToken :=
  let y : ℤ := (weekday r.Date : ℤ) * 12
  let col := renderDayLevel (goIntensity g.Records r) g.Levels
  let attrs :=
    if overlay then
      [("fill-opacity", "0.0"), cssClassAttr ["herdstat-contribution-graph-cell-overlay"]]
    else
      cssClassAttrs ["herdstat-contribution-graph-cell",
        s!"herdstat-contribution-graph-cell-L{col}-bg"]
  let rect := coloredRoundedRect 0 y attrs
  let hp : HorizPos :=
    if weekIndex < 10 then .left else if 42 < weekIndex then .right else .center
  let vp : VertPos := if weekday r.Date ≤ 2 then .bottom else .top
  if overlay then rect ++ renderTooltipTokens 5 (y + 5) hp vp r else rect

/-- `weekSlice.isFirstWeekOfMonth`: the reference date falls within days
1-7 of a month. -/
def isFirstWeekOfMonth (d : ℤ) : Bool :=
  decide (1 ≤ dayOfMonth d) && decide (dayOfMonth d ≤ 7)

/-- The text anchor of a month label: end-anchored exactly for slice
index 52, start-anchored for every other slice. -/
def monthLabelAnchor (index : ℕ) : TextAnchor :=
  if index = 52 then .aEnd else .aStart

/-- The inward x-offset of a month label (10 for slice index 52, else 0). -/
def monthLabelDx (index : ℕ) : ℤ :=
  if index = 52 then 10 else 0

/-- The month label of a week slice (emitted only when
`isFirstWeekOfMonth` holds and the pass is not the overlay pass). -/
def monthLabelTokens (s : WeekSliceData) : List XmlToken :=
  simpleText (monthLabelDx s.index) 10 (monthLabelAnchor s.index)
    (cssClassAttrs ["herdstat-contribution-graph-fg"])
    (monthAbbrev (monthOf s.refDate))

/-- The day-cell column of a week slice (`translated` by 20 in y). -/
def sliceDaysTokens (g : ContributionGraph) (s : WeekSliceData)
    (overlay : Bool) : List XmlToken :=
  translated 0 20 ((s.records.map fun r => renderDayTokens g s.index r overlay).flatten)

/-- `weekSlice.render`. -/
def weekSliceRenderTokens (g : ContributionGraph) (s : WeekSliceData)
    (overlay : Bool) : List XmlToken :=
  (if !overlay && isFirstWeekOfMonth s.refDate then monthLabelTokens s else [])
    ++ sliceDaysTokens g s overlay

/-- `renderContributionCellMatrix`: weekday axis, then the translated
grid; within the grid the cell pass over all slices precedes the
overlay/tooltip pass (each slice translated to its column). -/
def renderCellMatrixTokens (g : ContributionGraph) : List XmlToken :=
  renderWeekdayAxisTokens
    ++ translated (if weekday g.LastDate = 6 then 62 else 50) 10
        (((partitionSlices g.LastDate g.Records).map fun s =>
            translated (12 * (s.index : ℤ)) 0 (weekSliceRenderTokens g s false)).flatten
          ++ ((partitionSlices g.LastDate g.Records).map fun s =>
              translated (12 * (s.index : ℤ)) 0 (weekSliceRenderTokens g s true)).flatten)

/-- The overall count computed in `Render`: the sum of all record counts. -/
def sumCounts (records : List ContributionRecord) : ℤ :=
  records.foldl (fun acc r => acc + r.Count) 0

/-- The opening `svg` tag written by `Render`. -/
def svgOpenToken : XmlToken :=
  XmlToken.startTag "svg"
    [("xmlns", "http://www.w3.org/2000/svg"),
     cssClassAttr ["herdstat-contribution-graph", "herdstat-contribution-graph-var"],
     ("width", "700"), ("height", "150")]

/-- `ContributionGraph.Render`: the full token stream of one render. -/
def renderTokens (g : ContributionGraph) : List XmlToken :=
  svgOpenToken
    :: (renderStyleTokens g
        ++ renderCellMatrixTokens g
        ++ renderOverallContributionsTokens 65 125 (sumCounts g.Records)
        ++ renderLegendTokens 565 125 g.Levels)
    ++ [XmlToken.closeTag "svg"]

/-! ## Aggregation (cmd/contribution_graph.go)

Events carry full timestamps; they are embedded as integer *hours* since
the epoch.  `internal.DaysBetween(a, b) = int(b.Sub(a).Hours() / 24)`
truncates toward zero. -/

/-- `internal.DaysBetween` on hour-granularity timestamps. -/
def goDaysBetween (a b : ℤ) : ℤ :=
  Int.tdiv (b - a) 24

/-- `(*records)[i].Count++` for an in-range index. -/
def bumpAt : List ContributionRecord → ℕ → List ContributionRecord
  | [], _ => []
  | r :: rs, 0 => { r with Count := r.Count + 1 } :: rs
  | r :: rs, n + 1 => r :: bumpAt rs n

/-- The per-issue body of `addIssueRelatedContributions`:
`idx := 52*7 - 1 - DaysBetween(createdAt, lastDay); if idx < 0 { continue };
(*records)[idx].Count++`.  Only `idx < 0` is guarded; an index `≥ len(records)`
is a Go runtime panic (index out of range), modelled as `none`. -/
def addIssueContribution (records : List ContributionRecord)
    (createdAt lastDay : ℤ) : Option (List ContributionRecord) :=
  let idx : ℤ := 52 * 7 - 1 - goDaysBetween createdAt lastDay
  if idx < 0 then some records
  else if idx.toNat < records.length then some (bumpAt records idx.toNat) else none

/-- The issue loop of `addIssueRelatedContributions` over the created-at
timestamps of all fetched issues; a panic aborts the whole aggregation. -/
def addIssueContributions (records : List ContributionRecord)
    (createds : List ℤ) (lastDay : ℤ) : Option (List ContributionRecord) :=
  createds.foldlM (fun rs c => addIssueContribution rs c lastDay) records

/-- The per-commit body of `addCommitContributionsForRepo` (for an
unfiltered commit): `i := 52*7 - 1 - DaysBetween(c.Committer.When, lastDay);
(*records)[i].Count++` with **no** range check at all; any index outside
`[0, len(records))` is a Go runtime panic, modelled as `none`. -/
def addCommitContribution (records : List ContributionRecord)
    (committedAt lastDay : ℤ) : Option (List ContributionRecord) :=
  let i : ℤ := 52 * 7 - 1 - goDaysBetween committedAt lastDay
  if 0 ≤ i ∧ i.toNat < records.length then some (bumpAt records i.toNat) else none

lemma weekday_lt_7 (d : ℤ) : weekday d < 7 := by
  unfold weekday
  omega

lemma lenSum_succ (w n i k : ℕ) :
    lenSum w n i (k + 1) = sliceLen w n i + lenSum w n (i + 1) k := by
  unfold lenSum
  rw [List.range_succ_eq_map]
  simp only [List.map_cons, List.sum_cons, List.map_map, Function.comp_def, Nat.add_zero]
  congr 1
  apply congrArg List.sum
  exact List.map_congr_left fun a _ => by
    rw [show i + Nat.succ a = i + 1 + a by omega]

lemma lenSum_total : ∀ w : ℕ, w < 7 → lenSum w (sliceCount w) 0 (sliceCount w) = 364 := by
  decide

lemma partitionFuel_length (lastDate : ℤ) (n : ℕ) :
    ∀ (k i : ℕ) (recs : List ContributionRecord),
      (partitionFuel lastDate n k i recs).length = k := by
  intro k
  induction k with
  | zero => intro i recs; rfl
  | succ k ih =>
    intro i recs
    simp only [partitionFuel, List.length_cons, ih]

lemma partitionFuel_join (lastDate : ℤ) (n : ℕ) :
    ∀ (k i : ℕ) (recs : List ContributionRecord),
      ((partitionFuel lastDate n k i recs).map WeekSliceData.records).flatten
        = recs.take (lenSum (weekday lastDate) n i k) := by
  intro k
  induction k with
  | zero => intro i recs; simp [partitionFuel, lenSum]
  | succ k ih =>
    intro i recs
    simp only [partitionFuel, List.map_cons, List.flatten_cons, ih, lenSum_succ]
    rw [List.take_add]

lemma weekday_previousSunday (d : ℤ) : weekday (previousSunday d) = 0 := by
  unfold weekday previousSunday
  omega

lemma partitionFuel_valid (lastDate : ℤ) (n : ℕ) (hn : 2 ≤ n) :
    ∀ (k i : ℕ) (recs : List ContributionRecord),
      lenSum (weekday lastDate) n i k ≤ recs.length →
      ∀ s ∈ partitionFuel lastDate n k i recs, validWeekSlice s = true := by
  intro k
  induction k with
  | zero => intro i recs _ s hs; simp [partitionFuel] at hs
  | succ k ih =>
    intro i recs hlen s hs
    rw [lenSum_succ] at hlen
    simp only [partitionFuel, List.mem_cons] at hs
    rcases hs with hs | hs
    · subst hs
      simp only [validWeekSlice, Bool.and_eq_true, beq_iff_eq, Bool.or_eq_true]
      refine ⟨⟨weekday_previousSunday _, ?_⟩, ?_⟩
      · by_cases h0 : i = 0
        · right
          simp only [sliceLast, h0]
          rw [if_neg (by omega)]
        · left
          simp [sliceFirst, h0]
      · have h1 : sliceLen (weekday lastDate) n i ≤ recs.length := by omega
        rw [List.length_take, Nat.min_eq_left h1]
        rfl
    · exact ih (i + 1) (recs.drop (sliceLen (weekday lastDate) n i))
        (by simp only [List.length_drop]; omega) s hs

lemma partitionFuel_first (lastDate : ℤ) (n : ℕ) :
    ∀ (k i : ℕ) (recs : List ContributionRecord),
      ∀ s ∈ partitionFuel lastDate n k i recs,
        s.first = sliceFirst (weekday lastDate) n s.index := by
  intro k
  induction k with
  | zero => intro i recs s hs; simp [partitionFuel] at hs
  | succ k ih =>
    intro i recs s hs
    simp only [partitionFuel, List.mem_cons] at hs
    rcases hs with hs | hs
    · subst hs; rfl
    · exact ih (i + 1) _ s hs

/-- **C3.** For every `lastDate` and every 364-record calendar, the week
partitioning of `renderContributionCellMatrix` consumes all 364 records
exactly once, in their original order, with no remainder (the
concatenation of the slice record lists is the original record list), and
every constructed slice passes the `newWeekSlice` validation: its
reference date falls on a Sunday, its first weekday is Sunday or its last
weekday is Saturday, and it holds exactly `last - first + 1` records. -/
theorem partition_consumes_all_records (lastDate : ℤ)
    (recs : List ContributionRecord) (h : recs.length = 364) :
    ((partitionSlices lastDate recs).map WeekSliceData.records).flatten = recs
    ∧ ∀ s ∈ partitionSlices lastDate recs, validWeekSlice s = true := by
  have hw := weekday_lt_7 lastDate
  have htot := lenSum_total (weekday lastDate) hw
  constructor
  · rw [partitionSlices, partitionFuel_join, htot, ← h, List.take_length]
  · refine partitionFuel_valid lastDate _ ?_ _ 0 recs (by rw [htot, h])
    unfold sliceCount
    split <;> omega

/-- Witness for C3 at a concrete input: the all-zero calendar ending on
1970-01-01. -/
theorem partition_consumes_all_records_witness :
    ((partitionSlices 0 (List.replicate 364 ⟨0, 0⟩)).map WeekSliceData.records).flatten
        = List.replicate 364 (⟨0, 0⟩ : ContributionRecord)
    ∧ (partitionSlices 0 (List.replicate 364 ⟨0, 0⟩)).all validWeekSlice = true :=
  ⟨(partition_consumes_all_records 0 _ (by rw [List.length_replicate])).1,
   List.all_eq_true.mpr
    ((partition_consumes_all_records 0 _ (by rw [List.length_replicate])).2)⟩

/-- **C4.** For every last date, rendering partitions the calendar into
exactly 52 week slices when the last date's weekday is Saturday and into
exactly 53 slices otherwise; in the Saturday case the slice of index 0
still has `first = Sunday` (the window divides into 52 full weeks). -/
theorem slice_count_by_weekday (lastDate : ℤ) (recs : List ContributionRecord) :
    (weekday lastDate = 6 →
      (partitionSlices lastDate recs).length = 52
      ∧ ∀ s ∈ partitionSlices lastDate recs, s.index = 0 → s.first = 0)
    ∧ (weekday lastDate ≠ 6 → (partitionSlices lastDate recs).length = 53) := by
  constructor
  · intro h6
    constructor
    · rw [partitionSlices, partitionFuel_length, h6]; rfl
    · intro s hs hidx
      have := partitionFuel_first lastDate _ _ 0 recs s hs
      rw [this, hidx, h6, sliceFirst]
      rfl
  · intro h6
    rw [partitionSlices, partitionFuel_length, sliceCount, if_neg h6]

/-- Witness for C4: 2023-04-08 (epoch day 19455) is a Saturday and yields
52 slices; 1970-01-01 (epoch day 0, a Thursday) yields 53 slices. -/
theorem slice_count_by_weekday_witness :
    (partitionSlices 19455 []).length = 52 ∧ (partitionSlices 0 []).length = 53 :=
  ⟨((slice_count_by_weekday 19455 []).1 (by decide)).1,
   (slice_count_by_weekday 0 []).2 (by decide)⟩

example : civilFromDays 0 = (1970, 1, 1) := by decide
example : civilFromDays 19455 = (2023, 4, 8) := by decide
example : weekday 19455 = 6 := by decide
example : weekday 0 = 4 := by decide

/-! ## C1: intensity -/

lemma goMaxAux_le (l : List ContributionRecord) :
    ∀ m : ContributionRecord, m.Count ≤ (goMaxAux m l).Count := by
  induction l with
  | nil => intro m; exact le_refl _
  | cons e es ih =>
    intro m
    refine le_trans ?_ (ih (if m.Count < e.Count then e else m))
    split <;> omega

lemma count_le_goMaxAux (l : List ContributionRecord) :
    ∀ (m r : ContributionRecord), r ∈ l → r.Count ≤ (goMaxAux m l).Count := by
  induction l with
  | nil => intro m r hr; simp at hr
  | cons e es ih =>
    intro m r hr
    rcases List.mem_cons.mp hr with h | h
    · subst h
      refine le_trans ?_ (goMaxAux_le es _)
      split <;> omega
    · exact ih _ r h

lemma count_le_maxCountOf {records : List ContributionRecord}
    {r : ContributionRecord} (hr : r ∈ records) : r.Count ≤ maxCountOf records := by
  cases records with
  | nil => simp at hr
  | cons e es =>
    rcases List.mem_cons.mp hr with h | h
    · subst h; exact goMaxAux_le es _
    · exact count_le_goMaxAux es _ r h

/-- **C1 as stated is false.**  For the two-record calendar with counts 1
and 2 (non-negative), `maxCount = 2` and the source computes intensity
`(255 / 2) * 1 = 127` for the count-1 record, while the claimed formula
`round(255 * 1 / 2) = round(127.5) = 128` (clamping changes nothing).
The discrepancy: `255.0 / maxCount` is Go integer division, not a float
division feeding a rounding step. -/
theorem intensity_round_counterexample :
    goIntensity [⟨0, 1⟩, ⟨1, 2⟩] ⟨0, 1⟩ = 127
    ∧ intensitySpecRound (maxCountOf [⟨0, 1⟩, ⟨1, 2⟩]) 1 = 128
    ∧ goIntensity [⟨0, 1⟩, ⟨1, 2⟩] ⟨0, 1⟩
        ≠ (intensitySpecRound (maxCountOf [⟨0, 1⟩, ⟨1, 2⟩]) 1).toNat := by
  have hmax : maxCountOf [⟨0, 1⟩, ⟨1, 2⟩] = 2 := rfl
  have hgo : goIntensity [⟨0, 1⟩, ⟨1, 2⟩] ⟨0, 1⟩ = 127 := rfl
  have hspec : intensitySpecRound 2 1 = 128 := by
    unfold intensitySpecRound
    rw [if_neg (by norm_num)]
    norm_num [round_eq]
  refine ⟨hgo, ?_, ?_⟩
  · rw [hmax]; exact hspec
  · rw [hgo, hmax, hspec]; decide

/-- **C1 amended.**  For every contribution graph whose records have
non-negative counts and every record `r` in it, the computed intensity is
0 when the maximum count over all records is 0, and otherwise equals
`(255 / maxCount) * r.count` where both the division and the product are
Go `int` operations (truncating division); this value automatically lies
in `[0, 255]`, so neither the clamp nor the `uint8` conversion changes
it. -/
theorem intensity_amended (records : List ContributionRecord)
    (r : ContributionRecord) (hpos : ∀ x ∈ records, 0 ≤ x.Count)
    (hr : r ∈ records) :
    (maxCountOf records = 0 → goIntensity records r = 0)
    ∧ (maxCountOf records ≠ 0 →
        (goIntensity records r : ℤ) = Int.tdiv 255 (maxCountOf records) * r.Count
        ∧ goIntensity records r ≤ 255) := by
  have hle := count_le_maxCountOf hr
  have hrpos : 0 ≤ r.Count := hpos r hr
  constructor
  · intro h0
    simp [goIntensity, h0]
  · intro hM0
    obtain ⟨m, hm⟩ : ∃ m : ℕ, maxCountOf records = (m : ℤ) :=
      ⟨(maxCountOf records).toNat, (Int.toNat_of_nonneg (le_trans hrpos hle)).symm⟩
    obtain ⟨c, hc⟩ : ∃ c : ℕ, r.Count = (c : ℤ) :=
      ⟨r.Count.toNat, (Int.toNat_of_nonneg hrpos).symm⟩
    have hcm : c ≤ m := by rw [hm, hc] at hle; exact_mod_cast hle
    have hdiv : Int.tdiv (255 : ℤ) (maxCountOf records) = ((255 / m : ℕ) : ℤ) := by
      rw [hm]; rfl
    have hbound : 255 / m * c ≤ 255 :=
      le_trans (Nat.mul_le_mul_left _ hcm) (Nat.div_mul_le_self 255 m)
    have hval : goIntensity records r = 255 / m * c := by
      unfold goIntensity
      rw [if_neg hM0, hdiv, hc, ← Nat.cast_mul]
      omega
    refine ⟨?_, ?_⟩
    · rw [hval, hdiv, hc]
      push_cast
      ring
    · rw [hval]; exact hbound

/-- Witness for the amended C1 on a concrete calendar: counts `[3, 7]`,
`maxCount = 7`, intensity of the count-3 record is `(255 / 7) * 3 = 108`. -/
theorem intensity_amended_witness :
    (goIntensity [⟨0, 3⟩, ⟨1, 7⟩] ⟨0, 3⟩ : ℤ)
        = Int.tdiv 255 (maxCountOf [⟨0, 3⟩, ⟨1, 7⟩]) * 3
    ∧ goIntensity [⟨0, 3⟩, ⟨1, 7⟩] ⟨0, 3⟩ ≤ 255 :=
  (intensity_amended [⟨0, 3⟩, ⟨1, 7⟩] ⟨0, 3⟩
    (by intro x hx; fin_cases hx <;> norm_num) (by norm_num)).2 (by decide)

/-! ## C2: level quantization -/

lemma ceil_div_256 (a : ℕ) : ⌈(a : ℚ) / 256⌉ = (((a + 255) / 256 : ℕ) : ℤ) := by
  have h1 : 256 * ((a + 255) / 256) ≤ a + 255 := by omega
  have h2 : a + 255 < 256 * ((a + 255) / 256) + 256 := by omega
  rw [Int.ceil_eq_iff]
  constructor
  · rw [lt_div_iff (by norm_num : (0 : ℚ) < 256)]
    have hz : ((((a + 255) / 256 : ℕ) : ℤ) - 1) * 256 < (a : ℤ) := by
      push_cast
      omega
    exact_mod_cast hz
  · rw [div_le_iff (by norm_num : (0 : ℚ) < 256)]
    have hz : (a : ℤ) ≤ (((a + 255) / 256 : ℕ) : ℤ) * 256 := by
      push_cast
      omega
    exact_mod_cast hz

/-- **C2.** For every intensity in `[0, 255]` and every configured levels
value in `[5, 255]`, the discrete color level assigned to a day cell
equals `min ⌈intensity / 256 * levels⌉ (levels - 1)`; this value always
lies in `[0, levels - 1]`, and intensity 0 yields level 0. -/
theorem level_quantization (intensity levels : ℕ)
    (hi : intensity ≤ 255) (hl5 : 5 ≤ levels) (hl : levels ≤ 255) :
    renderDayLevel intensity levels
        = min (⌈(intensity : ℚ) / 256 * levels⌉).toNat (levels - 1)
    ∧ renderDayLevel intensity levels ≤ levels - 1
    ∧ renderDayLevel 0 levels = 0 := by
  refine ⟨?_, min_le_right _ _, by simp [renderDayLevel]⟩
  have hq : (intensity : ℚ) / 256 * levels = ((intensity * levels : ℕ) : ℚ) / 256 := by
    push_cast
    ring
  rw [renderDayLevel, hq, ceil_div_256, Int.toNat_natCast]

/-- Witness for C2 at intensity 200, levels 5. -/
theorem level_quantization_witness :
    renderDayLevel 200 5 = min (⌈(200 : ℚ) / 256 * 5⌉).toNat (5 - 1)
    ∧ renderDayLevel 200 5 ≤ 5 - 1
    ∧ renderDayLevel 0 5 = 0 :=
  level_quantization 200 5 (by norm_num) (by norm_num) (by norm_num)

/-! ## C6: legend -/

lemma legendLevel_eq (levels : ℕ) (h5 : 5 ≤ levels) (h255 : levels ≤ 255)
    (i : ℕ) (hi : i ≤ 4) : legendLevel levels i = (levels - 1) / 4 * i := by
  unfold legendLevel
  have h1 : (levels + 255) % 256 = levels - 1 := by omega
  rw [h1]
  have h2 : (levels - 1) / 4 ≤ 63 := by omega
  exact Nat.mod_eq_of_lt (lt_of_le_of_lt (Nat.mul_le_mul h2 hi) (by norm_num))

/-- **C6 as stated is false.**  For `levels = 6` the swatch of index 3 is
colored with level `(6 - 1) / 4 * 3 = 1 * 3 = 3` (uint8 integer
division), while the claimed formula gives
`round((6 - 1) / 4 * 3) = round(3.75) = 4`. -/
theorem legend_level_round_counterexample :
    legendLevel 6 3 = 3 ∧ legendLevelSpecRound 6 3 = 4
    ∧ ((legendLevel 6 3 : ℤ) ≠ legendLevelSpecRound 6 3) := by
  have h1 : legendLevel 6 3 = 3 := rfl
  have h2 : legendLevelSpecRound 6 3 = 4 := by
    unfold legendLevelSpecRound
    norm_num [round_eq]
  exact ⟨h1, h2, by rw [h1, h2]; decide⟩

/-- **C6 amended.**  For every configured levels value in `[5, 255]`, the
rendered legend consists of exactly 5 swatches, where swatch `i` (for
`i` in `0..4`) is colored with level `(levels - 1) / 4 * i` computed with
truncating integer division, preceded by a "Less" label and followed by a
"More" label. -/
theorem legend_structure_amended (x y : ℤ) (levels : ℕ)
    (h5 : 5 ≤ levels) (h255 : levels ≤ 255) :
    renderLegendTokens x y levels
      = simpleText x (y + 9) .aStart
            (cssClassAttrs ["herdstat-contribution-graph-fg"]) "Less"
          ++ ((List.range 5).map fun (i : ℕ) =>
                coloredRoundedRect (x + 29 + 12 * (i : ℤ)) y
                  (cssClassAttrs ["herdstat-contribution-graph-cell",
                    s!"herdstat-contribution-graph-cell-L{(levels - 1) / 4 * i}-bg"])).flatten
          ++ simpleText (x + 90) (y + 9) .aStart
              (cssClassAttrs ["herdstat-contribution-graph-fg"]) "More"
    ∧ ((List.range 5).map fun i => legendSwatch x y levels i).length = 5 := by
  constructor
  · unfold renderLegendTokens
    have hmap : ∀ i ∈ List.range 5,
        legendSwatch x y levels i
          = coloredRoundedRect (x + 29 + 12 * (i : ℤ)) y
              (cssClassAttrs ["herdstat-contribution-graph-cell",
                s!"herdstat-contribution-graph-cell-L{(levels - 1) / 4 * i}-bg"]) := by
      intro i hi
      unfold legendSwatch
      rw [legendLevel_eq levels h5 h255 i (by
        have := List.mem_range.mp hi
        omega)]
    rw [List.map_congr_left hmap]
  · simp

/-- Witness for the amended C6 with the default configuration
`levels = 5` at the legend location used by `Render`. -/
theorem legend_structure_amended_witness :
    renderLegendTokens 565 125 5
      = simpleText 565 (125 + 9) .aStart
            (cssClassAttrs ["herdstat-contribution-graph-fg"]) "Less"
          ++ ((List.range 5).map fun (i : ℕ) =>
                coloredRoundedRect (565 + 29 + 12 * (i : ℤ)) 125
                  (cssClassAttrs ["herdstat-contribution-graph-cell",
                    s!"herdstat-contribution-graph-cell-L{(5 - 1) / 4 * i}-bg"])).flatten
          ++ simpleText (565 + 90) (125 + 9) .aStart
              (cssClassAttrs ["herdstat-contribution-graph-fg"]) "More"
    ∧ ((List.range 5).map fun i => legendSwatch 565 125 5 i).length = 5 :=
  legend_structure_amended 565 125 5 (by norm_num) (by norm_num)

/-! ## C7: color interpolation -/

lemma goColorChannel_eq (a b i : ℕ) (hb : b ≤ 255) (hi : i ≤ 255)
    (hab : a ≤ b) : goColorChannel a b i = a + (b - a) * i / 256 := by
  unfold goColorChannel
  rw [← Int.ofNat_sub hab, ← Nat.cast_mul]
  have htdiv : Int.tdiv (((b - a) * i : ℕ) : ℤ) 256 = (((b - a) * i / 256 : ℕ) : ℤ) := rfl
  rw [htdiv, ← Nat.cast_add]
  have hq : (b - a) * i / 256 ≤ b - a := by
    calc (b - a) * i / 256 ≤ (b - a) * 256 / 256 :=
          Nat.div_le_div_right (Nat.mul_le_mul_left _ (le_trans hi (by norm_num)))
      _ = b - a := Nat.mul_div_cancel _ (by norm_num)
  have hlt : a + (b - a) * i / 256 ≤ 255 := by omega
  omega

/-- **C7 as stated is false.**  For the spectrum endpoints 0 and 255 on a
channel and intensity 1, the source computes
`0 + tdiv (255 * 1) 256 = 0`, while the claimed formula gives
`0 + round(255 / 256 * 1) = 1`.  The float-to-`uint8` conversion in
`defaultColoring` truncates; nothing rounds the interpolation term
(`math.Round` applies only to the integral difference `b - a`). -/
theorem color_channel_round_counterexample :
    goColorChannel 0 255 1 = 0 ∧ colorChannelSpecRound 0 255 1 = 1
    ∧ ((goColorChannel 0 255 1 : ℤ) ≠ colorChannelSpecRound 0 255 1) := by
  have h1 : goColorChannel 0 255 1 = 0 := by decide
  have h2 : colorChannelSpecRound 0 255 1 = 1 := by
    unfold colorChannelSpecRound
    norm_num [round_eq]
  exact ⟨h1, h2, by rw [h1, h2]; decide⟩

/-- **C7 amended.**  For spectrum endpoint colors with
`min ≤ max` per channel (as produced by `getColorScheme`, dark mode) and
every intensity in `[0, 255]`, the interpolated color has each RGB
channel equal to `channelMin + (channelMax - channelMin) * intensity / 256`
with truncating integer division (not rounding), computed independently
for the R, G and B channels. -/
theorem color_interpolation_amended (mn mx : Rgb) (i : ℕ) (hi : i ≤ 255)
    (hbR : mx.R ≤ 255) (hbG : mx.G ≤ 255) (hbB : mx.B ≤ 255)
    (hR : mn.R ≤ mx.R) (hG : mn.G ≤ mx.G) (hB : mn.B ≤ mx.B) :
    defaultColoring mn mx i
      = ⟨mn.R + (mx.R - mn.R) * i / 256,
         mn.G + (mx.G - mn.G) * i / 256,
         mn.B + (mx.B - mn.B) * i / 256⟩ := by
  unfold defaultColoring
  rw [goColorChannel_eq _ _ _ hbR hi hR, goColorChannel_eq _ _ _ hbG hi hG,
    goColorChannel_eq _ _ _ hbB hi hB]

/-- Witness for the amended C7: the default dark spectrum
`#2d333b → #39d352` at intensity 128. -/
theorem color_interpolation_amended_witness :
    defaultColoring ⟨45, 51, 59⟩ ⟨57, 211, 82⟩ 128 = ⟨51, 131, 70⟩ := by
  rw [color_interpolation_amended ⟨45, 51, 59⟩ ⟨57, 211, 82⟩ 128
    (by norm_num) (by norm_num) (by norm_num) (by norm_num)
    (by norm_num) (by norm_num) (by norm_num)]
  rfl

/-! ## C8: month labels -/

lemma partitionFuel_index_lt (lastDate : ℤ) (n : ℕ) :
    ∀ (k i : ℕ) (recs : List ContributionRecord),
      ∀ s ∈ partitionFuel lastDate n k i recs, s.index < i + k := by
  intro k
  induction k with
  | zero => intro i recs s hs; simp [partitionFuel] at hs
  | succ k ih =>
    intro i recs s hs
    simp only [partitionFuel, List.mem_cons] at hs
    rcases hs with hs | hs
    · subst hs
      show i < i + (k + 1)
      omega
    · have := ih (i + 1) _ s hs
      omega

/-- **C8 as stated is false.**  For `lastDate = 2023-04-08` (epoch day
19455, a Saturday) the layout has 52 slices (indices 0..51); the
rightmost slice has index 51 and reference date 2023-04-02 (day 2 of the
month, so a label is drawn), but its label is **start**-anchored because
the source end-anchors only slice index 52 — which never exists in the
52-slice layout. -/
theorem month_label_rightmost_counterexample :
    weekday 19455 = 6
    ∧ ((partitionSlices 19455 (List.replicate 364 ⟨0, 0⟩)).getLast?).map
          (fun s => (s.index, isFirstWeekOfMonth s.refDate, monthLabelAnchor s.index))
        = some (51, true, TextAnchor.aStart)
    ∧ TextAnchor.aStart ≠ TextAnchor.aEnd := by
  refine ⟨by decide, by decide, by decide⟩

/-- **C8 amended.**  For every week slice produced by a render, a month
label is drawn if and only if the slice's reference date (its anchoring
Sunday) has day-of-month between 1 and 7 inclusive; the label is
end-anchored (with inward offset) exactly for the slice of index 52 —
the rightmost slice of the 53-slice layout — and start-anchored for
every other slice; in the 52-slice (Saturday) layout no slice has index
52, so every month label, the rightmost slice's included, is
start-anchored. -/
theorem month_label_amended (g : ContributionGraph) (s : WeekSliceData)
    (hs : s ∈ partitionSlices g.LastDate g.Records) :
    (weekSliceRenderTokens g s false = monthLabelTokens s ++ sliceDaysTokens g s false
        ↔ (1 ≤ dayOfMonth s.refDate ∧ dayOfMonth s.refDate ≤ 7))
    ∧ (monthLabelAnchor s.index = TextAnchor.aEnd ↔ s.index = 52)
    ∧ (weekday g.LastDate = 6 → s.index ≠ 52) := by
  refine ⟨?_, ?_, ?_⟩
  · constructor
    · intro h
      by_contra hc
      have hff : isFirstWeekOfMonth s.refDate = false := by
        simp only [isFirstWeekOfMonth, Bool.and_eq_false_iff, decide_eq_false_iff_not]
        omega
      rw [weekSliceRenderTokens, hff] at h
      simp only [Bool.and_false, if_false, List.nil_append] at h
      have hlen := congrArg List.length h
      simp [monthLabelTokens, simpleText, textElem, nonEmptyElement] at hlen
      omega
    · intro hcond
      have htt : isFirstWeekOfMonth s.refDate = true := by
        simp only [isFirstWeekOfMonth, Bool.and_eq_true, decide_eq_true_eq]
        omega
      rw [weekSliceRenderTokens, htt]
      simp
  · unfold monthLabelAnchor
    constructor
    · intro h
      by_contra hne
      rw [if_neg hne] at h
      exact absurd h (by decide)
    · intro h
      rw [if_pos h]
  · intro h6
    have hidx := partitionFuel_index_lt g.LastDate _ _ 0 g.Records s hs
    rw [h6] at hidx
    have h52 : sliceCount 6 = 52 := rfl
    rw [h52] at hidx
    omega

/-- Witness for the amended C8: the rightmost slice (index 51, reference
date 2023-04-02) of the Saturday layout for 2023-04-08 over an all-zero
calendar: its month label is drawn and it is not end-anchored. -/
theorem month_label_amended_witness :
    weekSliceRenderTokens ⟨List.replicate 364 ⟨0, 0⟩, 19455, fun _ _ => ⟨0, 0, 0⟩, 5⟩
          ⟨19449, 0, 6, List.replicate 7 ⟨0, 0⟩, 51⟩ false
        = monthLabelTokens ⟨19449, 0, 6, List.replicate 7 ⟨0, 0⟩, 51⟩
            ++ sliceDaysTokens ⟨List.replicate 364 ⟨0, 0⟩, 19455, fun _ _ => ⟨0, 0, 0⟩, 5⟩
                ⟨19449, 0, 6, List.replicate 7 ⟨0, 0⟩, 51⟩ false
    ∧ monthLabelAnchor 51 ≠ TextAnchor.aEnd
    ∧ (51 : ℕ) ≠ 52 := by
  have h := month_label_amended ⟨List.replicate 364 ⟨0, 0⟩, 19455, fun _ _ => ⟨0, 0, 0⟩, 5⟩
    ⟨19449, 0, 6, List.replicate 7 ⟨0, 0⟩, 51⟩ (by decide)
  exact ⟨h.1.mpr (by decide), fun he => absurd (h.2.1.mp he) (by decide),
    h.2.2 (by decide)⟩

/-! ## C9: overall count label -/

/-- **C9.** For every calendar, the number emitted in the overall-count
label is exactly the sum of the counts of all records of the calendar:
the render token stream contains the character data
`"<N> contributions<nbsp>"` followed by `"in the last year"`, with
`N = sumCounts g.Records` (the fold computed by `Render`). -/
theorem overall_count_roundtrip (g : ContributionGraph) :
    ∃ pre post,
      renderTokens g
        = pre ++ [XmlToken.charData (contributionsLabel (sumCounts g.Records)),
                  XmlToken.closeTag "tspan",
                  XmlToken.charData "in the last year"] ++ post
      ∧ contributionsLabel (sumCounts g.Records)
          = toString (sumCounts g.Records) ++ " contributions " := by
  refine ⟨svgOpenToken :: (renderStyleTokens g ++ renderCellMatrixTokens g)
      ++ [XmlToken.startTag "text"
            ([("x", toString (65 : ℤ)), ("y", toString (125 + 9 : ℤ)),
              ("font-size", "12px"), ("text-anchor", anchorValue .aStart)]
              ++ cssClassAttrs ["herdstat-contribution-graph-fg"]),
          XmlToken.startTag "tspan" [("font-weight", "800")]],
    [XmlToken.closeTag "text"] ++ renderLegendTokens 565 125 g.Levels
      ++ [XmlToken.closeTag "svg"], ?_, ?_⟩
  · simp [renderTokens, renderOverallContributionsTokens, textElem, nonEmptyElement]
  · rfl

/-! ## C10: determinism -/

/-- **C10.** Rendering is deterministic end to end: two renders of
contribution graphs with equal `Records`, equal `LastDate`, the same
`Coloring` function and equal `Levels` emit identical token sequences.
(The embedding is a pure function of exactly these four fields — the
source reads no other state during `Render`.) -/
theorem render_deterministic (g1 g2 : ContributionGraph)
    (hr : g1.Records = g2.Records) (hd : g1.LastDate = g2.LastDate)
    (hc : g1.Coloring = g2.Coloring) (hl : g1.Levels = g2.Levels) :
    renderTokens g1 = renderTokens g2 := by
  cases g1
  cases g2
  exact congrArg renderTokens (by
    rw [ContributionGraph.mk.injEq]
    exact ⟨hr, hd, hc, hl⟩)

/-- Witness for C10 on a concrete graph. -/
theorem render_deterministic_witness :
    renderTokens ⟨[⟨0, 1⟩], 0, fun _ _ => ⟨0, 0, 0⟩, 5⟩
      = renderTokens ⟨[⟨0, 1⟩], 0, fun _ _ => ⟨0, 0, 0⟩, 5⟩ :=
  render_deterministic _ _ rfl rfl rfl rfl

/-! ## C5: out-of-window aggregation -/

set_option maxRecDepth 8192 in
/-- **C5 is right about the intent but the code panics.**  On a 364-slot
record array with `lastDay = 0` (hours):
* an event 400 days before the window start maps to index `-37` and is
  silently skipped by the issue loop (`idx < 0` guard) — as the claim
  says;
* an in-window event on the last day increments exactly bucket
  `363 = 363 - daysBetween` — as the claim says;
* but an issue dated 2 days **after** `lastDay` maps to index
  `365 > 363`, which the issue loop does not guard: the indexing
  `(*records)[365]` panics (modelled `none`), aborting the whole
  aggregation instead of skipping the event;
* the commit loop has no guard at all, so even a too-old commit
  (index `-37`) panics;
* consequently an aggregation run over an in-window event followed by a
  future-dated event fails as a whole. -/
theorem aggregation_out_of_window_panics :
    addIssueContribution (List.replicate 364 ⟨0, 0⟩) (-9600) 0
        = some (List.replicate 364 ⟨0, 0⟩)
    ∧ addIssueContribution (List.replicate 364 ⟨0, 0⟩) 0 0
        = some (bumpAt (List.replicate 364 ⟨0, 0⟩) 363)
    ∧ addIssueContribution (List.replicate 364 ⟨0, 0⟩) 48 0 = none
    ∧ addCommitContribution (List.replicate 364 ⟨0, 0⟩) (-9600) 0 = none
    ∧ addIssueContributions (List.replicate 364 ⟨0, 0⟩) [0, 48] 0 = none := by
  refine ⟨?_, ?_, ?_, ?_, ?_⟩ <;> decide

end Herdstat
